import Mathlib

/-!
# esp32-pi-mqtt: the device-identity state machine of `esp32/main/main.c`

A shallow embedding of the firmware's globals, of `mqtt_event_handler` and of the body of the
`while (true)` loop of `app_main`, followed by theorems about them.

Conventions of the embedding

* C `int` values are `Int`; every arithmetic result is wrapped to 32 bits (`wrapInt32`),
  `int64_t` results to 64 bits (`wrapInt64`).
* C strings are `List Char` without the terminating NUL.
* The event group is the `Nat` holding its bits; `BIT0 .. BIT3` are `1, 2, 4, 8`.
* `float` / `double` values are exact dyadic numbers: a value `v` is kept as the natural number
  `v * 2^32` (unit `2^-32`), and every floating-point operation is the exact operation followed
  by rounding to 24 (`float`) or 53 (`double`) significant bits, ties to even.  All values the
  program computes are non-negative multiples of `2^-32` far below the overflow threshold, so
  this is the IEEE-754 result.
* Calls into the MQTT client and the LED driver are recorded as a list of `Action`s.
* While the control loop blocks (`led_blink`, `xEventGroupWaitBits`) the MQTT task may run the
  handler; the events handled during that time are an input (`IterEnv.arrivals`) of the
  iteration, as are the readings of `esp_timer_get_time`.
-/

namespace Esp32PiMqtt

/-! ## Machine integers -/

/-- Two's-complement wrap of an integer to a signed 32-bit `int`. -/
def wrapInt32 (x : Int) : Int := (x + 2147483648) % 4294967296 - 2147483648

/-- Two's-complement wrap of an integer to a signed 64-bit `int64_t`. -/
def wrapInt64 (x : Int) : Int :=
  (x + 9223372036854775808) % 18446744073709551616 - 9223372036854775808

def INT_MAX : Int := 2147483647
def INT_MIN : Int := -2147483648
def UINT32_MAX : Nat := 4294967295

/-! ## Floating point as rounded dyadic numbers -/

/-- Number of low bits that do not fit a `p`-bit significand: the least `e` with
`n / 2^e < 2^p`.  The first argument is fuel; `n` itself is always enough. -/
def dropBits (p : Nat) : Nat → Nat → Nat
  | 0, _ => 0
  | fuel + 1, n => if n < 2 ^ p then 0 else dropBits p fuel (n / 2) + 1

/-- Round a natural number to the nearest one with at most `p` significant bits, ties to even. -/
def roundBits (p n : Nat) : Nat :=
  let e := dropBits p n n
  let q := n / 2 ^ e
  let r := n % 2 ^ e
  if 2 ^ e < 2 * r ∨ (2 * r = 2 ^ e ∧ q % 2 = 1) then (q + 1) * 2 ^ e else q * 2 ^ e

/-- Rounding to `float` (24-bit significand). -/
def roundF32 (n : Nat) : Nat := roundBits 24 n

/-- Rounding to `double` (53-bit significand). -/
def roundF64 (n : Nat) : Nat := roundBits 53 n

/-- The unit of the fixed-point reading of a floating-point value: `v` is stored as `v * 2^32`. -/
def Q32 : Nat := 4294967296

/-- Line 206: `2.0 + ((float)esp_random() / UINT32_MAX) * 3.0`, stored into the `float`
`publish_interval_sec`.  `r` is the value of `esp_random()`; the result is in units of `2^-32` s.
`UINT32_MAX` is converted to `float` for the division (it becomes `2^32`); the product and the
sum are `double` operations because `3.0` and `2.0` are `double` constants. -/
def random_publish_interval (r : Nat) : Nat :=
  let rf := roundF32 r
  let maxf := roundF32 UINT32_MAX
  let x := roundF32 (rf * Q32 / maxf)
  let y := roundF64 (x * 3)
  let z := roundF64 (2 * Q32 + y)
  roundF32 z

/-- Conversion `(float)elapsed_ms` of an `int64_t`, as an integer. -/
def int64_to_float (x : Int) : Int :=
  if x < 0 then -((roundF32 x.natAbs : Nat) : Int) else ((roundF32 x.toNat : Nat) : Int)

def ACK_TIMEOUT_MULTIPLIER : Nat := 4

/-- Line 269, right-hand side: `ACK_TIMEOUT_MULTIPLIER * publish_interval_sec * 1000`, two
`float` multiplications; the result is in units of `2^-32` ms. -/
def ack_timeout_ms (publish_interval_sec : Nat) : Nat :=
  roundF32 (roundF32 (ACK_TIMEOUT_MULTIPLIER * publish_interval_sec) * 1000)

/-- Line 269: `elapsed_ms > (ACK_TIMEOUT_MULTIPLIER * publish_interval_sec * 1000)`, compared as
`float`s. -/
def ack_timed_out (elapsed_ms : Int) (publish_interval_sec : Nat) : Bool :=
  decide (((ack_timeout_ms publish_interval_sec : Nat) : Int) < int64_to_float elapsed_ms * (Q32 : Int))

/-! ## C strings -/

/-- The character NUL. -/
def NUL : Char := Char.ofNat 0

/-- `strndup(s, n)`: a copy of at most `n` characters of `s`, ending at the first NUL. -/
def strndup (s : List Char) (n : Nat) : List Char :=
  (s.take n).takeWhile (fun c => c != NUL)

/-- `strstr(haystack, needle)`: the suffix of `haystack` that starts at the first occurrence of
`needle`, or `none` (NULL). -/
def strstr : List Char → List Char → Option (List Char)
  | [], needle => if needle.isEmpty then some [] else none
  | c :: cs, needle => if needle.isPrefixOf (c :: cs) then some (c :: cs) else strstr cs needle

/-- `snprintf(buf, size, ...)` keeps at most `size - 1` characters of the formatted text. -/
def snprintf (size : Nat) (text : List Char) : List Char := text.take (size - 1)

/-- One decimal digit. -/
def digitChar (d : Nat) : Char := Char.ofNat (48 + d % 10)

/-- Decimal digits of a natural number, most significant first; `fuel` bounds the digit count. -/
def decDigits : Nat → Nat → List Char
  | 0, _ => []
  | fuel + 1, n => if n < 10 then [digitChar n] else decDigits fuel (n / 10) ++ [digitChar n]

/-- The text `%u` prints. -/
def fmtNat (n : Nat) : List Char := decDigits (n + 1) n

/-- The text `%d` prints. -/
def fmtInt (i : Int) : List Char :=
  if i < 0 then (Char.ofNat 45) :: fmtNat i.natAbs else fmtNat i.toNat

/-- One upper-case hexadecimal digit. -/
def hexDigitUpper (d : Nat) : Char :=
  if d % 16 < 10 then Char.ofNat (48 + d % 16) else Char.ofNat (55 + d % 16)

/-- The text `%02X` prints for a `uint8_t`. -/
def fmtHex2 (b : Nat) : List Char := [hexDigitUpper (b % 256 / 16), hexDigitUpper (b % 256)]

def isspace (c : Char) : Bool := c.toNat = 32 || (9 ≤ c.toNat && c.toNat ≤ 13)

def isdigit (c : Char) : Bool := 48 ≤ c.toNat && c.toNat ≤ 57

/-- Digit accumulation of `atoi`: stops at the first character that is not a digit. -/
def atoiDigits (acc : Nat) : List Char → Nat
  | [] => acc
  | c :: cs => if isdigit c then atoiDigits (acc * 10 + (c.toNat - 48)) cs else acc

/-- Saturation of `strtol` on a 32-bit `long`. -/
def clampInt32 (x : Int) : Int := if x < INT_MIN then INT_MIN else if INT_MAX < x then INT_MAX else x

/-- `atoi(s)` as `(int)strtol(s, NULL, 10)`: leading white space, an optional sign, then decimal
digits up to the first other character; no digits give 0. -/
def atoi (s : List Char) : Int :=
  match s.dropWhile isspace with
  | [] => 0
  | c :: cs =>
    if c = Char.ofNat 45 then clampInt32 (-(atoiDigits 0 cs : Int))
    else if c = Char.ofNat 43 then clampInt32 (atoiDigits 0 cs : Int)
    else clampInt32 (atoiDigits 0 (c :: cs) : Int)

/-! ## Constants and globals -/

def DEFAULT_ID : Int := -99
def MAX_TOPIC_LEN : Nat := 64

inductive device_state_t where
  | STATE_DISCOVERY
  | STATE_WAITING_FOR_ID
  | STATE_ACTIVE
  deriving DecidableEq, Repr

open device_state_t

def WIFI_CONNECTED_BIT : Nat := 1
def ACK_REQUEST_BIT : Nat := 2
def ID_RECEIVED_BIT : Nat := 4
def ACK_RECEIVED_BIT : Nat := 8

/-- The globals of `main.c` that the state machine uses, with the local `last_ack_time` of
`app_main`, which lives across iterations. -/
structure Machine where
  current_state : device_state_t
  device_id : Int
  mac_str : List Char
  event_group : Nat
  msg_counter : Int
  missed_acks : Int
  publish_interval_sec : Nat
  last_ack_time : Int
  deriving DecidableEq, Repr

/-- Calls into the collaborators, in program order. -/
inductive Action where
  | publish (topic msg : List Char) (len qos retain : Nat)
  | subscribe (topic : List Char) (qos : Nat)
  | led_blink (r g b : Nat)
  | vTaskDelay
  deriving DecidableEq, Repr

/-! ## Event group -/

/-- `xEventGroupSetBits(event_group, mask)`. -/
def xEventGroupSetBits (bits mask : Nat) : Nat := bits ||| mask

/-- `xEventGroupClearBits(event_group, mask)`: `bits & ~mask`. -/
def xEventGroupClearBits (bits mask : Nat) : Nat := bits ^^^ (bits &&& mask)

/-- `xEventGroupWaitBits(event_group, mask, clearOnExit, waitForAll, ticks)` at the moment it
returns, `bits` being the group then: the returned value and the group afterwards.  The bits of
`mask` are cleared only when the call returns because the wait condition was met. -/
def xEventGroupWaitBits (bits mask : Nat) (clearOnExit waitForAll : Bool) : Nat × Nat :=
  let met := if waitForAll then bits &&& mask = mask else bits &&& mask ≠ 0
  if met then (bits, if clearOnExit then xEventGroupClearBits bits mask else bits)
  else (bits, bits)

/-! ## The MQTT event handler (lines 78-114) -/

inductive mqtt_event_id where
  | MQTT_EVENT_CONNECTED
  | MQTT_EVENT_DATA
  | MQTT_EVENT_OTHER
  deriving DecidableEq, Repr

open mqtt_event_id

/-- The fields of `esp_mqtt_event_t` the handler reads: `topic` holds the `topic_len` bytes at
`event->topic`, `data` the `data_len` bytes at `event->data`. -/
structure mqtt_event where
  topic : List Char
  data : List Char
  deriving DecidableEq, Repr

def ACK_REQUEST_TOPIC : List Char := "esp32/ack_request/".toList
def ID_RESPONSE_TOPIC : List Char := "esp32/id_response/".toList
def REGISTER_TOPIC : List Char := "esp32/register/".toList
def ACK_TOPIC : List Char := "esp32/ack/".toList
def ID_TOPIC : List Char := "esp32/id/".toList
def REGISTER_MSG : List Char := "Trying to connect to Pi".toList
def HELLO_MSG : List Char := "Hello Pi! I am ESP32 Id: ".toList

/-- `mqtt_event_handler`: the calls it makes and the globals afterwards. -/
def mqtt_event_handler (event_id : mqtt_event_id) (event : mqtt_event) (s : Machine) :
    List Action × Machine :=
  match event_id with
  | MQTT_EVENT_CONNECTED =>
    let ack_request_topic := snprintf MAX_TOPIC_LEN (ACK_REQUEST_TOPIC ++ s.mac_str)
    let id_response_topic := snprintf MAX_TOPIC_LEN (ID_RESPONSE_TOPIC ++ s.mac_str)
    ([Action.subscribe ack_request_topic 1, Action.subscribe id_response_topic 1], s)
  | MQTT_EVENT_DATA =>
    let topic := strndup event.topic event.topic.length
    let payload := strndup event.data event.data.length
    if (strstr topic "ack_request/".toList).isSome then
      ([], { s with event_group := xEventGroupSetBits s.event_group ACK_REQUEST_BIT })
    else if (strstr topic "id_response/".toList).isSome then
      ([], { s with device_id := atoi payload,
                    event_group := xEventGroupSetBits s.event_group ID_RECEIVED_BIT })
    else if (strstr topic "ack/".toList).isSome then
      ([], { s with event_group := xEventGroupSetBits s.event_group ACK_RECEIVED_BIT })
    else ([], s)
  | MQTT_EVENT_OTHER => ([], s)

/-- The globals after the MQTT task has handled a sequence of events, oldest first. -/
def deliver : List (mqtt_event_id × mqtt_event) → Machine → Machine
  | [], s => s
  | e :: es, s => deliver es (mqtt_event_handler e.1 e.2 s).2

/-! ## The control loop of `app_main` (lines 210-282) -/

/-- What one iteration of the loop receives from outside: the events the MQTT task handles
while the loop is blocked in `led_blink` and `xEventGroupWaitBits`, the reading of
`esp_timer_get_time()` at line 243 or 260, and the reading at line 266. -/
structure IterEnv where
  arrivals : List (mqtt_event_id × mqtt_event)
  t_ack : Int
  t_now : Int

/-- Lines 211-226: one iteration that starts in `STATE_DISCOVERY`. -/
def discovery_iteration (env : IterEnv) (s : Machine) : List Action × Machine :=
  let topic := snprintf 64 (REGISTER_TOPIC ++ s.mac_str)
  let msg := snprintf 64 REGISTER_MSG
  let s1 := deliver env.arrivals s
  let w := xEventGroupWaitBits s1.event_group ACK_REQUEST_BIT true false
  let s2 := { s1 with event_group := w.2 }
  let s3 := if w.1 &&& ACK_REQUEST_BIT ≠ 0 then { s2 with current_state := STATE_WAITING_FOR_ID }
            else s2
  ([Action.publish topic msg 0 1 0, Action.led_blink 255 0 0], s3)

/-- Lines 228-244: one iteration that starts in `STATE_WAITING_FOR_ID`. -/
def waiting_iteration (env : IterEnv) (s : Machine) : List Action × Machine :=
  let s1 := deliver env.arrivals s
  let w := xEventGroupWaitBits s1.event_group ID_RECEIVED_BIT true false
  let s2 := { s1 with event_group := w.2 }
  if w.1 &&& ID_RECEIVED_BIT ≠ 0 then
    let ack_topic := snprintf MAX_TOPIC_LEN (ACK_TOPIC ++ fmtInt s2.device_id)
    ([Action.led_blink 255 128 0, Action.subscribe ack_topic 1],
     { s2 with current_state := STATE_ACTIVE, msg_counter := 0, missed_acks := 0,
               last_ack_time := env.t_ack })
  else ([Action.led_blink 255 128 0], s2)

/-- Lines 257-263: the non-blocking check of `ACK_RECEIVED_BIT`. -/
def consume_ack (t_ack : Int) (s : Machine) : Machine :=
  if s.event_group &&& ACK_RECEIVED_BIT ≠ 0 then
    { s with event_group := xEventGroupClearBits s.event_group ACK_RECEIVED_BIT,
             last_ack_time := t_ack, missed_acks := 0 }
  else s

/-- Line 267: `(now - last_ack_time) / 1000`, `int64_t` arithmetic, division towards zero. -/
def elapsed_ms (now last_ack_time : Int) : Int := (wrapInt64 (now - last_ack_time)).tdiv 1000

/-- Lines 265-280: the staleness test with the fall-back to discovery, and the delay that ends
the iteration otherwise. -/
def check_staleness (now : Int) (s : Machine) : List Action × Machine :=
  if ack_timed_out (elapsed_ms now s.last_ack_time) s.publish_interval_sec then
    let s1 := { s with missed_acks := wrapInt32 (s.missed_acks + 1) }
    if 1 ≤ s1.missed_acks then
      ([], { s1 with current_state := STATE_DISCOVERY, device_id := DEFAULT_ID })
    else ([Action.vTaskDelay], s1)
  else ([Action.vTaskDelay], s)

/-- Lines 246-281: one iteration that starts in `STATE_ACTIVE`. -/
def active_iteration (env : IterEnv) (s : Machine) : List Action × Machine :=
  let topic := snprintf 64 (ID_TOPIC ++ fmtInt s.device_id)
  let msg := snprintf 64 (HELLO_MSG ++ fmtInt s.device_id)
  let s1 := deliver env.arrivals s
  let s2 := { s1 with msg_counter := wrapInt32 (s1.msg_counter + 1) }
  let s3 := consume_ack env.t_ack s2
  let r := check_staleness env.t_now s3
  (Action.publish topic msg 0 1 0 :: Action.led_blink 0 255 0 :: r.1, r.2)

/-- One iteration of the `while (true)` loop of `app_main`. -/
def app_main_iteration (env : IterEnv) (s : Machine) : List Action × Machine :=
  match s.current_state with
  | STATE_DISCOVERY => discovery_iteration env s
  | STATE_WAITING_FOR_ID => waiting_iteration env s
  | STATE_ACTIVE => active_iteration env s

/-- Lines 198-201: `mac_str` as formatted by "%02X:%02X:%02X:%02X:%02X:%02X" from the bytes
`mac[0] .. mac[5]` of the hardware address. -/
def format_mac (mac : List Nat) : List Char :=
  snprintf 18
    (fmtHex2 (mac.getD 0 0) ++ [Char.ofNat 58] ++ fmtHex2 (mac.getD 1 0) ++ [Char.ofNat 58] ++
     fmtHex2 (mac.getD 2 0) ++ [Char.ofNat 58] ++ fmtHex2 (mac.getD 3 0) ++ [Char.ofNat 58] ++
     fmtHex2 (mac.getD 4 0) ++ [Char.ofNat 58] ++ fmtHex2 (mac.getD 5 0))

/-- The machine when the loop is entered: the static initialisers of the globals, `mac_str` and
`publish_interval_sec` as set by lines 198-206, `last_ack_time` as read at line 208.  `wifi`
tells whether the connection wait of `wifi_init_sta` ended with `WIFI_CONNECTED_BIT` set. -/
def initial_machine (mac : List Nat) (r : Nat) (t0 : Int) (wifi : Bool) : Machine :=
  { current_state := STATE_DISCOVERY
    device_id := DEFAULT_ID
    mac_str := format_mac mac
    event_group := if wifi then WIFI_CONNECTED_BIT else 0
    msg_counter := 0
    missed_acks := 0
    publish_interval_sec := random_publish_interval r
    last_ack_time := t0 }

/-- The machines that handler calls and loop iterations can produce from an initial one. -/
inductive Reachable : Machine → Prop where
  | init (mac : List Nat) (r : Nat) (t0 : Int) (wifi : Bool) :
      mac.length = 6 → r ≤ UINT32_MAX → Reachable (initial_machine mac r t0 wifi)
  | handler (event_id : mqtt_event_id) (event : mqtt_event) (s : Machine) :
      Reachable s → Reachable (mqtt_event_handler event_id event s).2
  | iteration (env : IterEnv) (s : Machine) :
      Reachable s → Reachable (app_main_iteration env s).2

/-- The outcome of the staleness test of line 269 in the iteration of an Active machine: the
test runs after the events have been handled, the counter incremented and a pending ack
consumed. -/
def staleness_detected (env : IterEnv) (s : Machine) : Bool :=
  let s1 := deliver env.arrivals s
  let s3 := consume_ack env.t_ack { s1 with msg_counter := wrapInt32 (s1.msg_counter + 1) }
  ack_timed_out (elapsed_ms env.t_now s3.last_ack_time) s3.publish_interval_sec

/-- A hardware address used in examples: AA:BB:CC:DD:EE:FF. -/
def sample_mac : List Nat := [170, 187, 204, 221, 238, 255]

/-- An initial machine used in examples: interval 2.0 s, clock at 0. -/
def sample_initial : Machine := initial_machine sample_mac 0 0 true

/-- An ack-request message for `sample_mac`. -/
def sample_ack_request : mqtt_event_id × mqtt_event :=
  (MQTT_EVENT_DATA, { topic := "esp32/ack_request/AA:BB:CC:DD:EE:FF".toList, data := [] })

/-- An id-response message for `sample_mac` carrying the identity 42. -/
def sample_id_response : mqtt_event_id × mqtt_event :=
  (MQTT_EVENT_DATA, { topic := "esp32/id_response/AA:BB:CC:DD:EE:FF".toList, data := "42".toList })

/-- An ack message for identity 42. -/
def sample_ack : mqtt_event_id × mqtt_event :=
  (MQTT_EVENT_DATA, { topic := "esp32/ack/42".toList, data := [] })

/-- The machine after the discovery iteration during which the ack request arrived. -/
def sample_waiting : Machine :=
  (app_main_iteration { arrivals := [sample_ack_request], t_ack := 0, t_now := 0 }
    sample_initial).2

/-- The machine after the waiting iteration during which the id response arrived, at time
1 s. -/
def sample_active : Machine :=
  (app_main_iteration { arrivals := [sample_id_response], t_ack := 1000000, t_now := 1000000 }
    sample_waiting).2

/-- The initial machine after an id response has been handled while still in Discovery. -/
def sample_stray_id : Machine :=
  (mqtt_event_handler sample_id_response.1 sample_id_response.2 sample_initial).2

/-- The machine when line 258 is reached in an Active iteration: the events of the iteration
handled and `msg_counter` incremented. -/
def before_ack_check (env : IterEnv) (s : Machine) : Machine :=
  let s1 := deliver env.arrivals s
  { s1 with msg_counter := wrapInt32 (s1.msg_counter + 1) }

/-! ## Event-group bit lemmas and the frame of the handler -/

theorem and_set_self (b m : Nat) : xEventGroupSetBits b m &&& m = m := by
  unfold xEventGroupSetBits
  apply Nat.eq_of_testBit_eq
  intro i
  simp only [Nat.testBit_and, Nat.testBit_or]
  cases b.testBit i <;> cases m.testBit i <;> rfl

theorem and_set_other (b m k : Nat) (h : m &&& k = 0) :
    xEventGroupSetBits b m &&& k = b &&& k := by
  unfold xEventGroupSetBits
  apply Nat.eq_of_testBit_eq
  intro i
  have hi : (m &&& k).testBit i = false := by rw [h]; simp
  simp only [Nat.testBit_and, Nat.testBit_or] at hi ⊢
  revert hi
  cases b.testBit i <;> cases m.testBit i <;> cases k.testBit i <;> simp

theorem and_clear_self (b m : Nat) : xEventGroupClearBits b m &&& m = 0 := by
  unfold xEventGroupClearBits
  apply Nat.eq_of_testBit_eq
  intro i
  simp only [Nat.testBit_and, Nat.testBit_xor, Nat.zero_testBit]
  cases b.testBit i <;> cases m.testBit i <;> rfl

theorem and_clear_other (b m k : Nat) (h : m &&& k = 0) :
    xEventGroupClearBits b m &&& k = b &&& k := by
  unfold xEventGroupClearBits
  apply Nat.eq_of_testBit_eq
  intro i
  have hi : (m &&& k).testBit i = false := by rw [h]; simp
  simp only [Nat.testBit_and, Nat.testBit_xor] at hi ⊢
  revert hi
  cases b.testBit i <;> cases m.testBit i <;> cases k.testBit i <;> simp

theorem handler_frame (id : mqtt_event_id) (ev : mqtt_event) (s : Machine) :
    (mqtt_event_handler id ev s).2.current_state = s.current_state ∧
    (mqtt_event_handler id ev s).2.missed_acks = s.missed_acks ∧
    (mqtt_event_handler id ev s).2.msg_counter = s.msg_counter ∧
    (mqtt_event_handler id ev s).2.publish_interval_sec = s.publish_interval_sec ∧
    (mqtt_event_handler id ev s).2.last_ack_time = s.last_ack_time ∧
    (mqtt_event_handler id ev s).2.mac_str = s.mac_str := by
  cases id
  · simp [mqtt_event_handler]
  · simp only [mqtt_event_handler]
    split_ifs <;> simp
  · simp [mqtt_event_handler]


theorem deliver_frame (es : List (mqtt_event_id × mqtt_event)) (s : Machine) :
    (deliver es s).current_state = s.current_state ∧
    (deliver es s).missed_acks = s.missed_acks ∧
    (deliver es s).msg_counter = s.msg_counter ∧
    (deliver es s).publish_interval_sec = s.publish_interval_sec ∧
    (deliver es s).last_ack_time = s.last_ack_time ∧
    (deliver es s).mac_str = s.mac_str := by
  induction es generalizing s with
  | nil => simp [deliver]
  | cons e es ih =>
    obtain ⟨h1, h2, h3, h4, h5, h6⟩ := handler_frame e.1 e.2 s
    obtain ⟨k1, k2, k3, k4, k5, k6⟩ := ih (mqtt_event_handler e.1 e.2 s).2
    simp only [deliver]
    exact ⟨k1.trans h1, k2.trans h2, k3.trans h3, k4.trans h4, k5.trans h5, k6.trans h6⟩

theorem discovery_iteration_state (env : IterEnv) (s : Machine) :
    (discovery_iteration env s).2.current_state = s.current_state ∨
    (discovery_iteration env s).2.current_state = STATE_WAITING_FOR_ID := by
  have h := (deliver_frame env.arrivals s).1
  simp only [discovery_iteration]
  split_ifs
  · right; rfl
  · left; exact h

theorem waiting_iteration_state (env : IterEnv) (s : Machine) :
    (waiting_iteration env s).2.current_state = s.current_state ∨
    (waiting_iteration env s).2.current_state = STATE_ACTIVE := by
  have h := (deliver_frame env.arrivals s).1
  simp only [waiting_iteration]
  split_ifs
  · right; rfl
  · left; exact h

theorem consume_ack_frame (t : Int) (s : Machine) :
    (consume_ack t s).current_state = s.current_state ∧
    (consume_ack t s).device_id = s.device_id ∧
    (consume_ack t s).msg_counter = s.msg_counter ∧
    (consume_ack t s).publish_interval_sec = s.publish_interval_sec ∧
    (consume_ack t s).mac_str = s.mac_str := by
  simp only [consume_ack]
  split_ifs <;> simp

theorem check_staleness_state (now : Int) (s : Machine) :
    (check_staleness now s).2.current_state = s.current_state ∨
    (check_staleness now s).2.current_state = STATE_DISCOVERY := by
  simp only [check_staleness]
  split_ifs
  · right; rfl
  · left; rfl
  · left; rfl

theorem active_iteration_state (env : IterEnv) (s : Machine) :
    (active_iteration env s).2.current_state = s.current_state ∨
    (active_iteration env s).2.current_state = STATE_DISCOVERY := by
  have h := (deliver_frame env.arrivals s).1
  simp only [active_iteration]
  rcases check_staleness_state env.t_now (consume_ack env.t_ack
    { deliver env.arrivals s with
      msg_counter := wrapInt32 ((deliver env.arrivals s).msg_counter + 1) }) with h1 | h1
  · left
    rw [h1, (consume_ack_frame _ _).1]
    exact h
  · right; exact h1

/-- C7: one iteration of the control loop leaves `current_state` unchanged or performs exactly
one of Discovery → WaitingForId, WaitingForId → Active, Active → Discovery; no iteration that
starts in WaitingForId ends in Discovery and none that starts in Discovery ends in Active. -/
theorem one_transition_per_iteration (env : IterEnv) (s : Machine) :
    ((app_main_iteration env s).2.current_state = s.current_state ∨
      (s.current_state = STATE_DISCOVERY ∧
        (app_main_iteration env s).2.current_state = STATE_WAITING_FOR_ID) ∨
      (s.current_state = STATE_WAITING_FOR_ID ∧
        (app_main_iteration env s).2.current_state = STATE_ACTIVE) ∨
      (s.current_state = STATE_ACTIVE ∧
        (app_main_iteration env s).2.current_state = STATE_DISCOVERY)) ∧
    (s.current_state = STATE_WAITING_FOR_ID →
      (app_main_iteration env s).2.current_state ≠ STATE_DISCOVERY) ∧
    (s.current_state = STATE_DISCOVERY →
      (app_main_iteration env s).2.current_state ≠ STATE_ACTIVE) := by
  have hd := discovery_iteration_state env s
  have hw := waiting_iteration_state env s
  have ha := active_iteration_state env s
  unfold app_main_iteration
  cases hs : s.current_state <;> simp only [hs] at hd hw ha ⊢
  · refine ⟨?_, by simp, fun _ => ?_⟩
    · rcases hd with h | h
      · left; exact h
      · right; left; exact ⟨trivial, h⟩
    · rcases hd with h | h <;> simp [h]
  · refine ⟨?_, fun _ => ?_, by simp⟩
    · rcases hw with h | h
      · left; exact h
      · right; right; left; exact ⟨trivial, h⟩
    · rcases hw with h | h <;> simp [h]
  · refine ⟨?_, by simp, by simp⟩
    rcases ha with h | h
    · left; exact h
    · right; right; right; exact ⟨trivial, h⟩

/-- C8 (as stated) fails: handling a data event on an id-response topic with payload "42"
changes `device_id` from -99 to 42. -/
theorem handler_writes_device_id :
    (initial_machine [170, 187, 204, 221, 238, 255] 0 0 true).device_id = -99 ∧
    (mqtt_event_handler MQTT_EVENT_DATA
      { topic := "esp32/id_response/AA:BB:CC:DD:EE:FF".toList, data := "42".toList }
      (initial_machine [170, 187, 204, 221, 238, 255] 0 0 true)).2.device_id = 42 := by
  decide

/-- C8 (amended): the handler leaves `current_state`, `missed_acks`, `msg_counter`,
`publish_interval_sec`, `last_ack_time` and `mac_str` as they were; `device_id` changes only
on a data event whose topic contains "id_response/" and not "ack_request/", and then becomes
`atoi` of the payload. -/
theorem handler_changes_flags_and_id_only (event_id : mqtt_event_id) (event : mqtt_event)
    (s : Machine) :
    (mqtt_event_handler event_id event s).2.current_state = s.current_state ∧
    (mqtt_event_handler event_id event s).2.missed_acks = s.missed_acks ∧
    (mqtt_event_handler event_id event s).2.msg_counter = s.msg_counter ∧
    (mqtt_event_handler event_id event s).2.publish_interval_sec = s.publish_interval_sec ∧
    (mqtt_event_handler event_id event s).2.last_ack_time = s.last_ack_time ∧
    (mqtt_event_handler event_id event s).2.mac_str = s.mac_str ∧
    (mqtt_event_handler event_id event s).2.device_id =
      (if event_id = MQTT_EVENT_DATA ∧
          (strstr (strndup event.topic event.topic.length) "ack_request/".toList).isSome = false ∧
          (strstr (strndup event.topic event.topic.length) "id_response/".toList).isSome = true
        then atoi (strndup event.data event.data.length) else s.device_id) := by
  obtain ⟨h1, h2, h3, h4, h5, h6⟩ := handler_frame event_id event s
  refine ⟨h1, h2, h3, h4, h5, h6, ?_⟩
  cases event_id
  · simp [mqtt_event_handler]
  · simp only [mqtt_event_handler]
    split_ifs <;> simp_all
  · simp [mqtt_event_handler]

theorem check_staleness_fresh (now : Int) (s : Machine)
    (h : ack_timed_out (elapsed_ms now s.last_ack_time) s.publish_interval_sec = false) :
    check_staleness now s = ([Action.vTaskDelay], s) := by
  simp [check_staleness, h]

theorem check_staleness_stale (now : Int) (s : Machine)
    (h : ack_timed_out (elapsed_ms now s.last_ack_time) s.publish_interval_sec = true)
    (h0 : 0 ≤ s.missed_acks) (h1 : s.missed_acks < INT_MAX) :
    check_staleness now s =
      ([], { s with missed_acks := s.missed_acks + 1, current_state := STATE_DISCOVERY,
                    device_id := DEFAULT_ID }) := by
  have hw : wrapInt32 (s.missed_acks + 1) = s.missed_acks + 1 := by
    unfold wrapInt32
    unfold INT_MAX at h1
    omega
  have h2 : (1 : Int) ≤ s.missed_acks + 1 := by omega
  simp [check_staleness, h, hw, h2]

theorem consume_ack_missed (t : Int) (s : Machine) (h : s.missed_acks = 0) :
    (consume_ack t s).missed_acks = 0 := by
  simp only [consume_ack]
  split_ifs <;> simp [h]

theorem active_iteration_missed (env : IterEnv) (s : Machine) (h : s.missed_acks = 0) :
    ((active_iteration env s).2.current_state = s.current_state ∧
      (active_iteration env s).2.missed_acks = 0) ∨
    ((active_iteration env s).2.current_state = STATE_DISCOVERY ∧
      (active_iteration env s).2.missed_acks = 1) := by
  have hd := deliver_frame env.arrivals s
  have hc := consume_ack_frame env.t_ack { deliver env.arrivals s with
      msg_counter := wrapInt32 ((deliver env.arrivals s).msg_counter + 1) }
  have hm := consume_ack_missed env.t_ack { deliver env.arrivals s with
      msg_counter := wrapInt32 ((deliver env.arrivals s).msg_counter + 1) }
      (by simp [hd.2.1, h])
  simp only [active_iteration]
  cases hst : ack_timed_out (elapsed_ms env.t_now (consume_ack env.t_ack
      { deliver env.arrivals s with
        msg_counter := wrapInt32 ((deliver env.arrivals s).msg_counter + 1) }).last_ack_time)
      (consume_ack env.t_ack { deliver env.arrivals s with
        msg_counter := wrapInt32 ((deliver env.arrivals s).msg_counter + 1) }).publish_interval_sec
  · left
    rw [check_staleness_fresh _ _ hst]
    exact ⟨hc.1.trans hd.1, hm⟩
  · right
    rw [check_staleness_stale _ _ hst (by rw [hm]) (by rw [hm]; decide)]
    simp [hm]

theorem iteration_missed_acks (env : IterEnv) (s : Machine)
    (h1 : s.missed_acks = 0 ∨ s.missed_acks = 1)
    (h2 : s.current_state = STATE_ACTIVE → s.missed_acks = 0) :
    ((app_main_iteration env s).2.missed_acks = 0 ∨
      (app_main_iteration env s).2.missed_acks = 1) ∧
    ((app_main_iteration env s).2.current_state = STATE_ACTIVE →
      (app_main_iteration env s).2.missed_acks = 0) := by
  have hd := deliver_frame env.arrivals s
  unfold app_main_iteration
  cases hs : s.current_state <;> simp only
  · simp only [discovery_iteration]
    split_ifs <;> simp [hd.2.1, hd.1, hs, h1]
  · simp only [waiting_iteration]
    split_ifs <;> simp [hd.2.1, hd.1, hs, h1]
  · rcases active_iteration_missed env s (h2 hs) with ⟨ha, hb⟩ | ⟨ha, hb⟩
    · simp [hb]
    · simp [ha, hb]

theorem reachable_missed_acks (s : Machine) (h : Reachable s) :
    (s.missed_acks = 0 ∨ s.missed_acks = 1) ∧
    (s.current_state = STATE_ACTIVE → s.missed_acks = 0) := by
  induction h with
  | init mac r t0 wifi _ _ => simp [initial_machine]
  | handler id ev s _ ih =>
    obtain ⟨h1, h2, _⟩ := handler_frame id ev s
    rw [h1, h2]
    exact ih
  | iteration env s _ ih => exact iteration_missed_acks env s ih.1 ih.2

theorem sample_waiting_reachable : Reachable sample_waiting :=
  Reachable.iteration _ _ (Reachable.init sample_mac 0 0 true (by decide) (by decide))

theorem sample_active_reachable : Reachable sample_active :=
  Reachable.iteration _ _ sample_waiting_reachable

/-- C10: in every reachable machine `missed_acks` is 0 or 1, and 0 when `current_state` is
Active; so an iteration of an Active machine that detects staleness ends in Discovery, and an
iteration that ends Active has not incremented `missed_acks`. -/
theorem missed_acks_at_most_one (s : Machine) (h : Reachable s) :
    (s.missed_acks = 0 ∨ s.missed_acks = 1) ∧
    (s.current_state = STATE_ACTIVE → s.missed_acks = 0) ∧
    ∀ env : IterEnv, s.current_state = STATE_ACTIVE →
      (staleness_detected env s = true →
        (app_main_iteration env s).2.current_state = STATE_DISCOVERY) ∧
      ((app_main_iteration env s).2.current_state = STATE_ACTIVE →
        staleness_detected env s = false ∧ (app_main_iteration env s).2.missed_acks = 0) := by
  obtain ⟨h1, h2⟩ := reachable_missed_acks s h
  refine ⟨h1, h2, fun env hs => ?_⟩
  have hd := deliver_frame env.arrivals s
  have hm := consume_ack_missed env.t_ack { deliver env.arrivals s with
      msg_counter := wrapInt32 ((deliver env.arrivals s).msg_counter + 1) }
      (by simp [hd.2.1, h2 hs])
  have hc := consume_ack_frame env.t_ack { deliver env.arrivals s with
      msg_counter := wrapInt32 ((deliver env.arrivals s).msg_counter + 1) }
  unfold app_main_iteration
  simp only [hs, active_iteration]
  cases hst : staleness_detected env s
  · have hst2 := hst
    simp only [staleness_detected] at hst2
    rw [check_staleness_fresh _ _ hst2]
    simp [hm]
  · have hst2 := hst
    simp only [staleness_detected] at hst2
    rw [check_staleness_stale _ _ hst2 (by rw [hm]) (by rw [hm]; decide)]
    simp

/-- C10 witness: the invariant at the Active machine reached by the sample handshake. -/
theorem missed_acks_at_most_one_witness :
    Reachable sample_active ∧ sample_active.current_state = STATE_ACTIVE ∧
    ((sample_active.missed_acks = 0 ∨ sample_active.missed_acks = 1) ∧
    (sample_active.current_state = STATE_ACTIVE → sample_active.missed_acks = 0) ∧
    ∀ env : IterEnv, sample_active.current_state = STATE_ACTIVE →
      (staleness_detected env sample_active = true →
        (app_main_iteration env sample_active).2.current_state = STATE_DISCOVERY) ∧
      ((app_main_iteration env sample_active).2.current_state = STATE_ACTIVE →
        staleness_detected env sample_active = false ∧
        (app_main_iteration env sample_active).2.missed_acks = 0)) :=
  ⟨sample_active_reachable, by decide,
    missed_acks_at_most_one sample_active sample_active_reachable⟩

theorem handler_discovery_id (id : mqtt_event_id) (ev : mqtt_event) (s : Machine)
    (h : s.device_id = DEFAULT_ID ∨ s.event_group &&& ID_RECEIVED_BIT ≠ 0) :
    (mqtt_event_handler id ev s).2.device_id = DEFAULT_ID ∨
    (mqtt_event_handler id ev s).2.event_group &&& ID_RECEIVED_BIT ≠ 0 := by
  cases id
  · simpa [mqtt_event_handler] using h
  · simp only [mqtt_event_handler]
    split_ifs
    · simp only [and_set_other s.event_group ACK_REQUEST_BIT ID_RECEIVED_BIT (by decide)]
      exact h
    · right
      simp only [and_set_self]
      decide
    · simp only [and_set_other s.event_group ACK_RECEIVED_BIT ID_RECEIVED_BIT (by decide)]
      exact h
    · exact h
  · simpa [mqtt_event_handler] using h

theorem deliver_discovery_id (es : List (mqtt_event_id × mqtt_event)) (s : Machine)
    (h : s.device_id = DEFAULT_ID ∨ s.event_group &&& ID_RECEIVED_BIT ≠ 0) :
    (deliver es s).device_id = DEFAULT_ID ∨ (deliver es s).event_group &&& ID_RECEIVED_BIT ≠ 0 := by
  induction es generalizing s with
  | nil => simpa [deliver] using h
  | cons e es ih =>
    simp only [deliver]
    exact ih _ (handler_discovery_id e.1 e.2 s h)

theorem check_staleness_discovery (now : Int) (s : Machine)
    (h : (check_staleness now s).2.current_state = STATE_DISCOVERY)
    (hs : s.current_state ≠ STATE_DISCOVERY) :
    (check_staleness now s).2.device_id = DEFAULT_ID := by
  simp only [check_staleness] at h ⊢
  split_ifs at h ⊢
  · rfl
  · exact absurd h hs
  · exact absurd h hs

theorem iteration_discovery_id (env : IterEnv) (s : Machine)
    (h : s.current_state = STATE_DISCOVERY →
      s.device_id = DEFAULT_ID ∨ s.event_group &&& ID_RECEIVED_BIT ≠ 0)
    (hn : (app_main_iteration env s).2.current_state = STATE_DISCOVERY) :
    (app_main_iteration env s).2.device_id = DEFAULT_ID ∨
    (app_main_iteration env s).2.event_group &&& ID_RECEIVED_BIT ≠ 0 := by
  have hd := deliver_frame env.arrivals s
  unfold app_main_iteration at hn ⊢
  cases hs : s.current_state <;> simp only [hs] at hn ⊢
  · have hi := deliver_discovery_id env.arrivals s (h hs)
    simp only [discovery_iteration, xEventGroupWaitBits] at hn ⊢
    split_ifs at hn ⊢ <;> simp_all
  · exfalso
    rcases waiting_iteration_state env s with hw | hw <;> rw [hw] at hn
    · rw [hs] at hn; exact absurd hn (by decide)
    · exact absurd hn (by decide)
  · left
    simp only [active_iteration] at hn ⊢
    apply check_staleness_discovery _ _ hn
    rw [(consume_ack_frame _ _).1]
    simp [hd.1, hs]

theorem reachable_discovery_id (s : Machine) (h : Reachable s) :
    s.current_state = STATE_DISCOVERY →
      s.device_id = DEFAULT_ID ∨ s.event_group &&& ID_RECEIVED_BIT ≠ 0 := by
  induction h with
  | init mac r t0 wifi _ _ => intro _; left; rfl
  | handler id ev s _ ih =>
    intro hs
    rw [(handler_frame id ev s).1] at hs
    exact handler_discovery_id id ev s (ih hs)
  | iteration env s _ ih => exact iteration_discovery_id env s ih

/-- C1 (as stated) fails in both directions: after the ack request the machine is in
WaitingForId with `device_id` still -99, and an id response handled during Discovery leaves
the machine in Discovery with `device_id` 42. -/
theorem identity_unset_iff_discovery_fails :
    (Reachable sample_waiting ∧
      ¬ (sample_waiting.device_id = DEFAULT_ID ↔
          sample_waiting.current_state = STATE_DISCOVERY)) ∧
    (Reachable sample_stray_id ∧
      ¬ (sample_stray_id.device_id = DEFAULT_ID ↔
          sample_stray_id.current_state = STATE_DISCOVERY)) :=
  ⟨⟨sample_waiting_reachable, by decide⟩,
   ⟨Reachable.handler _ _ _ (Reachable.init sample_mac 0 0 true (by decide) (by decide)),
    by decide⟩⟩

/-- C1 (amended): in every reachable machine, if `current_state` is Discovery then `device_id`
is -99 or the IdReceived flag is set (an id response has been handled and not yet consumed);
and every iteration that takes an Active machine to Discovery ends with `device_id` = -99. -/
theorem discovery_identity_unset_or_pending (s : Machine) (h : Reachable s) :
    (s.current_state = STATE_DISCOVERY →
      s.device_id = DEFAULT_ID ∨ s.event_group &&& ID_RECEIVED_BIT ≠ 0) ∧
    ∀ env : IterEnv, s.current_state = STATE_ACTIVE →
      (app_main_iteration env s).2.current_state = STATE_DISCOVERY →
      (app_main_iteration env s).2.device_id = DEFAULT_ID := by
  refine ⟨reachable_discovery_id s h, fun env hs hn => ?_⟩
  have hd := deliver_frame env.arrivals s
  unfold app_main_iteration at hn ⊢
  simp only [hs, active_iteration] at hn ⊢
  apply check_staleness_discovery _ _ hn
  rw [(consume_ack_frame _ _).1]
  simp [hd.1, hs]

/-- C1 witness: the amended invariant at the machine that handled an id response during
Discovery, and at every iteration from there. -/
theorem discovery_identity_unset_or_pending_witness :
    sample_stray_id.current_state = STATE_DISCOVERY ∧ sample_stray_id.device_id = 42 ∧
    ((sample_stray_id.current_state = STATE_DISCOVERY →
      sample_stray_id.device_id = DEFAULT_ID ∨
        sample_stray_id.event_group &&& ID_RECEIVED_BIT ≠ 0) ∧
    ∀ env : IterEnv, sample_stray_id.current_state = STATE_ACTIVE →
      (app_main_iteration env sample_stray_id).2.current_state = STATE_DISCOVERY →
      (app_main_iteration env sample_stray_id).2.device_id = DEFAULT_ID) :=
  ⟨by decide, by decide,
   discovery_identity_unset_or_pending sample_stray_id
    (Reachable.handler _ _ _ (Reachable.init sample_mac 0 0 true (by decide) (by decide)))⟩

theorem and_set_ne_zero (b m k : Nat) (h : b &&& k ≠ 0) : xEventGroupSetBits b m &&& k ≠ 0 := by
  intro h0
  apply h
  unfold xEventGroupSetBits at h0
  apply Nat.eq_of_testBit_eq
  intro i
  have hi : ((b ||| m) &&& k).testBit i = false := by rw [h0]; simp
  simp only [Nat.testBit_and, Nat.testBit_or, Nat.zero_testBit] at hi ⊢
  revert hi
  cases b.testBit i <;> cases m.testBit i <;> cases k.testBit i <;> simp

theorem handler_keeps_bits (id : mqtt_event_id) (ev : mqtt_event) (s : Machine) (k : Nat)
    (h : s.event_group &&& k ≠ 0) : (mqtt_event_handler id ev s).2.event_group &&& k ≠ 0 := by
  cases id
  · simpa [mqtt_event_handler] using h
  · simp only [mqtt_event_handler]
    split_ifs
    · exact and_set_ne_zero _ _ _ h
    · exact and_set_ne_zero _ _ _ h
    · exact and_set_ne_zero _ _ _ h
    · exact h
  · simpa [mqtt_event_handler] using h

theorem deliver_keeps_bits (es : List (mqtt_event_id × mqtt_event)) (s : Machine) (k : Nat)
    (h : s.event_group &&& k ≠ 0) : (deliver es s).event_group &&& k ≠ 0 := by
  induction es generalizing s with
  | nil => simpa [deliver] using h
  | cons e es ih =>
    simp only [deliver]
    exact ih _ (handler_keeps_bits e.1 e.2 s k h)

theorem handler_with_ack_fields (id : mqtt_event_id) (ev : mqtt_event) (s : Machine)
    (T m : Int) :
    (mqtt_event_handler id ev { s with last_ack_time := T, missed_acks := m }).2 =
      { (mqtt_event_handler id ev s).2 with last_ack_time := T, missed_acks := m } := by
  cases id
  · simp [mqtt_event_handler]
  · simp only [mqtt_event_handler]
    split_ifs <;> rfl
  · simp [mqtt_event_handler]

theorem deliver_with_ack_fields (es : List (mqtt_event_id × mqtt_event)) (s : Machine)
    (T m : Int) :
    deliver es { s with last_ack_time := T, missed_acks := m } =
      { deliver es s with last_ack_time := T, missed_acks := m } := by
  induction es generalizing s with
  | nil => simp [deliver]
  | cons e es ih =>
    simp only [deliver]
    rw [handler_with_ack_fields, ih]

/-- C2 (as stated) fails: with interval 2.0 s, last ack at 1 s and the clock at 9.0005 s
(8 000 500 µs later, more than 4 × 2.0 s) the Active iteration stays Active, because the code
compares whole milliseconds; and a machine whose `missed_acks` is -1 stays Active however
stale it is. -/
theorem stale_by_less_than_a_millisecond_stays_active :
    (sample_active.current_state = STATE_ACTIVE ∧
      sample_active.last_ack_time = 1000000 ∧
      sample_active.publish_interval_sec = 2 * Q32 ∧
      sample_active.event_group &&& ACK_RECEIVED_BIT = 0 ∧
      4 * (sample_active.publish_interval_sec : Int) * 1000000 <
        (9000500 - sample_active.last_ack_time) * (Q32 : Int) ∧
      (app_main_iteration { arrivals := [], t_ack := 0, t_now := 9000500 }
        sample_active).2.current_state = STATE_ACTIVE) ∧
    (app_main_iteration { arrivals := [], t_ack := 0, t_now := 100000000 }
      { sample_active with missed_acks := -1 }).2.current_state = STATE_ACTIVE := by
  decide

/-- C2 (amended): for an Active machine with `0 ≤ missed_acks < INT_MAX`, no AckReceived flag
set once the events of the iteration are handled, and a clock reading `now` for which the
code's test `elapsed_ms > 4 * publish_interval_sec * 1000` holds, `elapsed_ms` being
`(now - last_ack_time) / 1000` in whole milliseconds, the iteration ends in Discovery with
`device_id` = -99, `missed_acks` incremented, and without the closing delay. -/
theorem stale_iteration_returns_to_discovery (env : IterEnv) (s : Machine)
    (hs : s.current_state = STATE_ACTIVE)
    (hflag : (deliver env.arrivals s).event_group &&& ACK_RECEIVED_BIT = 0)
    (h0 : 0 ≤ s.missed_acks) (h1 : s.missed_acks < INT_MAX)
    (hstale : ack_timed_out (elapsed_ms env.t_now s.last_ack_time) s.publish_interval_sec = true) :
    (app_main_iteration env s).2.current_state = STATE_DISCOVERY ∧
    (app_main_iteration env s).2.device_id = DEFAULT_ID ∧
    (app_main_iteration env s).2.missed_acks = s.missed_acks + 1 ∧
    Action.vTaskDelay ∉ (app_main_iteration env s).1 := by
  obtain ⟨d1, d2, d3, d4, d5, d6⟩ := deliver_frame env.arrivals s
  unfold app_main_iteration
  simp only [hs, active_iteration]
  have hc : consume_ack env.t_ack { deliver env.arrivals s with
      msg_counter := wrapInt32 ((deliver env.arrivals s).msg_counter + 1) } =
      { deliver env.arrivals s with
        msg_counter := wrapInt32 ((deliver env.arrivals s).msg_counter + 1) } := by
    simp [consume_ack, hflag]
  rw [hc, check_staleness_stale _ _ (by simpa [d4, d5] using hstale) (by simpa [d2] using h0)
    (by simpa [d2] using h1)]
  simp [d2]

/-- C2 witness: interval 2.0 s, last ack at 1 s, clock at 9.001 s. -/
theorem stale_iteration_returns_to_discovery_witness :
    (app_main_iteration { arrivals := [], t_ack := 0, t_now := 9001000 }
      sample_active).2.current_state = STATE_DISCOVERY ∧
    (app_main_iteration { arrivals := [], t_ack := 0, t_now := 9001000 }
      sample_active).2.device_id = DEFAULT_ID ∧
    (app_main_iteration { arrivals := [], t_ack := 0, t_now := 9001000 }
      sample_active).2.missed_acks = sample_active.missed_acks + 1 ∧
    Action.vTaskDelay ∉ (app_main_iteration { arrivals := [], t_ack := 0, t_now := 9001000 }
      sample_active).1 :=
  stale_iteration_returns_to_discovery { arrivals := [], t_ack := 0, t_now := 9001000 }
    sample_active (by decide) (by decide) (by decide) (by decide) (by decide)

theorem consume_ack_set (t : Int) (s : Machine) (h : s.event_group &&& ACK_RECEIVED_BIT ≠ 0) :
    consume_ack t s =
      { s with event_group := xEventGroupClearBits s.event_group ACK_RECEIVED_BIT,
               last_ack_time := t, missed_acks := 0 } := by
  simp [consume_ack, h]

theorem app_main_iteration_active (env : IterEnv) (s : Machine)
    (h : s.current_state = STATE_ACTIVE) : app_main_iteration env s = active_iteration env s := by
  unfold app_main_iteration
  rw [h]

/-- C4: in an Active machine whose AckReceived flag is set, whatever `last_ack_time` and
`missed_acks` were, the ack check of the iteration (lines 258-263) clears the flag, sets
`last_ack_time` to the clock reading taken there and `missed_acks` to 0, and the staleness test
runs on the machine so updated.  Hence the iteration ends with the flag cleared and
`last_ack_time` equal to that reading; it ends in Discovery exactly when the test of `now`
against the new reading holds; `missed_acks` ends at 0, or at 1 (counted from the reset value)
when that test holds; and the result does not depend on the old `last_ack_time` and
`missed_acks`. -/
theorem ack_consumption_resets (env : IterEnv) (s : Machine)
    (hs : s.current_state = STATE_ACTIVE) (hflag : s.event_group &&& ACK_RECEIVED_BIT ≠ 0) :
    ((consume_ack env.t_ack (before_ack_check env s)).event_group &&& ACK_RECEIVED_BIT = 0 ∧
      (consume_ack env.t_ack (before_ack_check env s)).last_ack_time = env.t_ack ∧
      (consume_ack env.t_ack (before_ack_check env s)).missed_acks = 0 ∧
      (app_main_iteration env s).2 =
        (check_staleness env.t_now (consume_ack env.t_ack (before_ack_check env s))).2) ∧
    (app_main_iteration env s).2.event_group &&& ACK_RECEIVED_BIT = 0 ∧
    (app_main_iteration env s).2.last_ack_time = env.t_ack ∧
    ((app_main_iteration env s).2.current_state =
      if ack_timed_out (elapsed_ms env.t_now env.t_ack) s.publish_interval_sec
      then STATE_DISCOVERY else STATE_ACTIVE) ∧
    ((app_main_iteration env s).2.missed_acks =
      if ack_timed_out (elapsed_ms env.t_now env.t_ack) s.publish_interval_sec
      then 1 else 0) ∧
    ∀ T m : Int, app_main_iteration env { s with last_ack_time := T, missed_acks := m } =
      app_main_iteration env s := by
  obtain ⟨d1, d2, d3, d4, d5, d6⟩ := deliver_frame env.arrivals s
  have hb := deliver_keeps_bits env.arrivals s ACK_RECEIVED_BIT hflag
  have key : ∀ T m : Int,
      (app_main_iteration env { s with last_ack_time := T, missed_acks := m }) =
      (Action.publish (snprintf 64 (ID_TOPIC ++ fmtInt s.device_id))
          (snprintf 64 (HELLO_MSG ++ fmtInt s.device_id)) 0 1 0 :: Action.led_blink 0 255 0 ::
        (check_staleness env.t_now
          { deliver env.arrivals s with
            msg_counter := wrapInt32 ((deliver env.arrivals s).msg_counter + 1),
            event_group := xEventGroupClearBits (deliver env.arrivals s).event_group
              ACK_RECEIVED_BIT,
            last_ack_time := env.t_ack, missed_acks := 0 }).1,
       (check_staleness env.t_now
          { deliver env.arrivals s with
            msg_counter := wrapInt32 ((deliver env.arrivals s).msg_counter + 1),
            event_group := xEventGroupClearBits (deliver env.arrivals s).event_group
              ACK_RECEIVED_BIT,
            last_ack_time := env.t_ack, missed_acks := 0 }).2) := by
    intro T m
    rw [app_main_iteration_active env { s with last_ack_time := T, missed_acks := m } hs]
    simp only [active_iteration]
    rw [deliver_with_ack_fields, consume_ack_set _ _ (by simpa using hb)]
  have key0 := key s.last_ack_time s.missed_acks
  simp only at key0
  have hcs : consume_ack env.t_ack (before_ack_check env s) =
      { deliver env.arrivals s with
        msg_counter := wrapInt32 ((deliver env.arrivals s).msg_counter + 1),
        event_group := xEventGroupClearBits (deliver env.arrivals s).event_group
          ACK_RECEIVED_BIT,
        last_ack_time := env.t_ack, missed_acks := 0 } := by
    unfold before_ack_check
    rw [consume_ack_set _ _ (by simpa using hb)]
  refine ⟨⟨?_, ?_, ?_, ?_⟩, ?_, ?_, ?_, ?_, fun T m => ?_⟩
  · rw [hcs]
    exact and_clear_self _ _
  · rw [hcs]
  · rw [hcs]
  · rw [hcs, key0]
  · rw [key0]
    simp only [check_staleness]
    split_ifs <;> exact and_clear_self _ _
  · rw [key0]
    simp only [check_staleness]
    split_ifs <;> rfl
  · rw [key0]
    simp only [check_staleness, d4]
    split_ifs <;> simp_all [wrapInt32]
  · rw [key0]
    simp only [check_staleness, d4]
    split_ifs <;> simp_all [wrapInt32]
  · rw [key T m, key0]

/-- C4 witness: the sample Active machine after an ack has been handled, 20 s after the last
one; the clock reads 21 s at consumption and at the staleness test. -/
theorem ack_consumption_resets_witness :
    (mqtt_event_handler sample_ack.1 sample_ack.2 sample_active).2.current_state = STATE_ACTIVE ∧
    (mqtt_event_handler sample_ack.1 sample_ack.2 sample_active).2.event_group
      &&& ACK_RECEIVED_BIT ≠ 0 ∧
    (app_main_iteration { arrivals := [], t_ack := 21000000, t_now := 21000000 }
      (mqtt_event_handler sample_ack.1 sample_ack.2 sample_active).2).2.last_ack_time
        = 21000000 ∧
    (app_main_iteration { arrivals := [], t_ack := 21000000, t_now := 21000000 }
      (mqtt_event_handler sample_ack.1 sample_ack.2 sample_active).2).2.current_state
        = STATE_ACTIVE :=
  ⟨by decide, by decide,
   (ack_consumption_resets { arrivals := [], t_ack := 21000000, t_now := 21000000 }
      (mqtt_event_handler sample_ack.1 sample_ack.2 sample_active).2
      (by decide) (by decide)).2.2.1,
   by decide⟩

theorem snprintf_of_length_lt (size : Nat) (text : List Char) (h : text.length < size) :
    snprintf size text = text := by
  unfold snprintf
  exact List.take_of_length_le (by omega)

theorem format_mac_length (mac : List Nat) : (format_mac mac).length ≤ 17 := by
  unfold format_mac snprintf
  simp only [List.length_take]
  omega

theorem register_topic_fits (mac : List Nat) :
    snprintf 64 (REGISTER_TOPIC ++ format_mac mac) = REGISTER_TOPIC ++ format_mac mac := by
  apply snprintf_of_length_lt
  have h := format_mac_length mac
  have h2 : REGISTER_TOPIC.length = 15 := by decide
  simp only [List.length_append, h2]
  omega

theorem id_topic_not_register (text : List Char) :
    ¬ REGISTER_TOPIC <+: snprintf 64 (ID_TOPIC ++ text) := by
  have h1 : ID_TOPIC = ['e', 's', 'p', '3', '2', '/', 'i', 'd', '/'] := by decide
  have h2 : REGISTER_TOPIC =
      ['e', 's', 'p', '3', '2', '/', 'r', 'e', 'g', 'i', 's', 't', 'e', 'r', '/'] := by decide
  rw [h1, h2]
  simp [snprintf, List.cons_prefix_cons]

theorem app_main_iteration_discovery (env : IterEnv) (s : Machine)
    (h : s.current_state = STATE_DISCOVERY) :
    app_main_iteration env s = discovery_iteration env s := by
  unfold app_main_iteration
  rw [h]

theorem discovery_iteration_timeout (env : IterEnv) (s : Machine)
    (h : (deliver env.arrivals s).event_group &&& ACK_REQUEST_BIT = 0) :
    (discovery_iteration env s).2 = deliver env.arrivals s := by
  simp [discovery_iteration, xEventGroupWaitBits, h]

theorem discovery_iteration_acked (env : IterEnv) (s : Machine)
    (h : (deliver env.arrivals s).event_group &&& ACK_REQUEST_BIT ≠ 0) :
    (discovery_iteration env s).2 =
      { deliver env.arrivals s with
        event_group := xEventGroupClearBits (deliver env.arrivals s).event_group ACK_REQUEST_BIT,
        current_state := STATE_WAITING_FOR_ID } := by
  simp [discovery_iteration, xEventGroupWaitBits, h]

/-- C6: an iteration that starts in Discovery makes exactly one publish call, on
"esp32/register/<hwid>"; it ends in WaitingForId with the AckRequested flag cleared when that
flag was set before or became set during the wait, and it ends as the machine the handler left
(Discovery, the machine itself when nothing arrived) when the wait timed out.  An iteration that
starts in WaitingForId or Active publishes on no topic that begins with "esp32/register/". -/
theorem discovery_publishes_register_once (env : IterEnv) (s : Machine) (mac : List Nat)
    (hmac : s.mac_str = format_mac mac) :
    (s.current_state = STATE_DISCOVERY →
      (app_main_iteration env s).1 =
        [Action.publish (REGISTER_TOPIC ++ format_mac mac) REGISTER_MSG 0 1 0,
         Action.led_blink 255 0 0] ∧
      ((s.event_group &&& ACK_REQUEST_BIT ≠ 0 ∨
          (deliver env.arrivals s).event_group &&& ACK_REQUEST_BIT ≠ 0) →
        (app_main_iteration env s).2.current_state = STATE_WAITING_FOR_ID ∧
        (app_main_iteration env s).2.event_group &&& ACK_REQUEST_BIT = 0) ∧
      ((deliver env.arrivals s).event_group &&& ACK_REQUEST_BIT = 0 →
        (app_main_iteration env s).2 = deliver env.arrivals s ∧
        (app_main_iteration env s).2.current_state = STATE_DISCOVERY ∧
        (env.arrivals = [] → (app_main_iteration env s).2 = s))) ∧
    (s.current_state ≠ STATE_DISCOVERY →
      ∀ topic msg len qos retain,
        Action.publish topic msg len qos retain ∈ (app_main_iteration env s).1 →
        ¬ REGISTER_TOPIC <+: topic) := by
  obtain ⟨d1, d2, d3, d4, d5, d6⟩ := deliver_frame env.arrivals s
  constructor
  · intro hs
    have hmsg : snprintf 64 REGISTER_MSG = REGISTER_MSG := by decide
    rw [app_main_iteration_discovery env s hs]
    refine ⟨?_, ?_, ?_⟩
    · simp only [discovery_iteration, hmac, register_topic_fits, hmsg]
    · intro hset
      have hset2 : (deliver env.arrivals s).event_group &&& ACK_REQUEST_BIT ≠ 0 := by
        rcases hset with h | h
        · exact deliver_keeps_bits _ _ _ h
        · exact h
      rw [discovery_iteration_acked env s hset2]
      exact ⟨rfl, and_clear_self _ _⟩
    · intro hclear
      rw [discovery_iteration_timeout env s hclear]
      refine ⟨rfl, d1.trans hs, fun hnil => ?_⟩
      simp [hnil, deliver]
  · intro hs topic msg len qos retain hmem
    unfold app_main_iteration at hmem
    cases hc : s.current_state
    · exact absurd hc hs
    · simp only [hc, waiting_iteration] at hmem
      split_ifs at hmem <;> simp at hmem
    · simp only [hc, active_iteration, check_staleness] at hmem
      have ht : topic = snprintf 64 (ID_TOPIC ++ fmtInt s.device_id) := by
        split_ifs at hmem <;> simp at hmem <;> exact hmem.1
      rw [ht]
      exact id_topic_not_register _

/-- C6 witness: the first iteration of the sample machine, during which the ack request
arrives. -/
theorem discovery_publishes_register_once_witness :
    sample_initial.current_state = STATE_DISCOVERY ∧
    (app_main_iteration { arrivals := [sample_ack_request], t_ack := 0, t_now := 0 }
      sample_initial).1 =
        [Action.publish "esp32/register/AA:BB:CC:DD:EE:FF".toList REGISTER_MSG 0 1 0,
         Action.led_blink 255 0 0] ∧
    (app_main_iteration { arrivals := [sample_ack_request], t_ack := 0, t_now := 0 }
      sample_initial).2.current_state = STATE_WAITING_FOR_ID :=
  ⟨by decide,
   ((discovery_publishes_register_once
      { arrivals := [sample_ack_request], t_ack := 0, t_now := 0 } sample_initial sample_mac
      rfl).1 (by decide)).1,
   by decide⟩

/-! ## C strings: classification of topics and the round trip of decimal text -/

theorem strstr_isSome_iff (hay needle : List Char) :
    (strstr hay needle).isSome = true ↔ needle <:+: hay := by
  induction hay with
  | nil =>
    cases needle <;> simp [strstr]
  | cons c cs ih =>
    rw [List.infix_cons_iff, ← ih]
    simp only [strstr]
    by_cases hp : needle.isPrefixOf (c :: cs) = true
    · simp [hp, List.isPrefixOf_iff_prefix.mp hp]
    · have hp2 : ¬ needle <+: c :: cs := fun h => hp (List.isPrefixOf_iff_prefix.mpr h)
      simp [hp, hp2]

theorem strstr_none_of_not_mem (hay needle : List Char) (c : Char) (hc : c ∈ needle)
    (hn : c ∉ hay) : (strstr hay needle).isSome = false := by
  cases h : (strstr hay needle).isSome
  · rfl
  · exact absurd ((List.IsInfix.subset ((strstr_isSome_iff hay needle).mp h)) hc) hn

theorem strndup_of_no_nul (s : List Char) (h : ∀ c ∈ s, c ≠ NUL) : strndup s s.length = s := by
  unfold strndup
  rw [List.take_length, List.takeWhile_eq_self_iff]
  intro c hc
  simpa using h c hc

theorem hexDigitUpper_range (d : Nat) :
    (48 ≤ (hexDigitUpper d).toNat ∧ (hexDigitUpper d).toNat ≤ 57) ∨
    (65 ≤ (hexDigitUpper d).toNat ∧ (hexDigitUpper d).toNat ≤ 70) := by
  have key : ∀ k < 16,
      (48 ≤ (if k < 10 then Char.ofNat (48 + k) else Char.ofNat (55 + k)).toNat ∧
        (if k < 10 then Char.ofNat (48 + k) else Char.ofNat (55 + k)).toNat ≤ 57) ∨
      (65 ≤ (if k < 10 then Char.ofNat (48 + k) else Char.ofNat (55 + k)).toNat ∧
        (if k < 10 then Char.ofNat (48 + k) else Char.ofNat (55 + k)).toNat ≤ 70) := by
    decide
  exact key (d % 16) (Nat.mod_lt _ (by decide))

theorem format_mac_chars (mac : List Nat) (c : Char) (hc : c ∈ format_mac mac) :
    (48 ≤ c.toNat ∧ c.toNat ≤ 58) ∨ (65 ≤ c.toNat ∧ c.toNat ≤ 70) := by
  have hcolon : (Char.ofNat 58).toNat = 58 := by decide
  have hmem := List.mem_of_mem_take hc
  simp only [fmtHex2, List.cons_append, List.nil_append, List.mem_cons, List.mem_singleton,
    List.not_mem_nil, or_false] at hmem
  rcases hmem with h | h | h | h | h | h | h | h | h | h | h | h | h | h | h | h | h <;>
    subst h <;>
    first
      | (rw [hcolon]; omega)
      | (rcases hexDigitUpper_range _ with hr | hr
         · left; exact ⟨hr.1, by omega⟩
         · right; exact hr)

theorem digitChar_toNat (d : Nat) : (digitChar d).toNat = 48 + d % 10 := by
  have key : ∀ k < 10, (Char.ofNat (48 + k)).toNat = 48 + k := by decide
  exact key (d % 10) (Nat.mod_lt _ (by decide))

theorem decDigits_chars (fuel n : Nat) (c : Char) (hc : c ∈ decDigits fuel n) :
    48 ≤ c.toNat ∧ c.toNat ≤ 57 := by
  induction fuel generalizing n with
  | zero => simp [decDigits] at hc
  | succ fuel ih =>
    simp only [decDigits] at hc
    have hd := digitChar_toNat n
    split_ifs at hc
    · simp only [List.mem_singleton] at hc
      subst hc
      omega
    · simp only [List.mem_append, List.mem_singleton] at hc
      rcases hc with h | h
      · exact ih _ h
      · subst h
        omega

theorem fmtInt_chars (i : Int) (c : Char) (hc : c ∈ fmtInt i) :
    c.toNat = 45 ∨ (48 ≤ c.toNat ∧ c.toNat ≤ 57) := by
  have hminus : (Char.ofNat 45).toNat = 45 := by decide
  unfold fmtInt fmtNat at hc
  split_ifs at hc
  · simp only [List.mem_cons] at hc
    rcases hc with h | h
    · left; rw [h, hminus]
    · right; exact decDigits_chars _ _ c h
  · right; exact decDigits_chars _ _ c hc

theorem decDigits_length (fuel n k : Nat) (hk : n < 10 ^ (k + 1)) :
    (decDigits fuel n).length ≤ k + 1 := by
  induction fuel generalizing n k with
  | zero => simp [decDigits]
  | succ fuel ih =>
    simp only [decDigits]
    split_ifs with h
    · simp
    · cases k with
      | zero => omega
      | succ k =>
        have h2 : n / 10 < 10 ^ (k + 1) := by
          rw [Nat.div_lt_iff_lt_mul (by decide)]
          rw [pow_succ] at hk
          exact hk
        have := ih (n / 10) k h2
        simp only [List.length_append, List.length_singleton]
        omega

theorem fmtInt_length (i : Int) (h1 : INT_MIN ≤ i) (h2 : i ≤ INT_MAX) :
    (fmtInt i).length ≤ 11 := by
  unfold INT_MIN at h1
  unfold INT_MAX at h2
  unfold fmtInt fmtNat
  split_ifs
  · have := decDigits_length (i.natAbs + 1) i.natAbs 9 (by omega)
    simp only [List.length_cons]
    omega
  · have := decDigits_length (i.toNat + 1) i.toNat 9 (by omega)
    omega

theorem atoiDigits_decDigits (fuel n : Nat) (rest : List Char) (h : n < 10 ^ fuel) :
    atoiDigits 0 (decDigits fuel n ++ rest) = atoiDigits n rest := by
  induction fuel generalizing n rest with
  | zero =>
    have h0 : n = 0 := by simpa using h
    simp [decDigits, h0]
  | succ fuel ih =>
    have hd := digitChar_toNat n
    have hdig : isdigit (digitChar n) = true := by
      simp only [isdigit, Bool.and_eq_true, decide_eq_true_eq]
      omega
    simp only [decDigits]
    split_ifs with hlt
    · simp only [List.singleton_append, atoiDigits, hdig, if_true]
      congr 1
      omega
    · have h2 : n / 10 < 10 ^ fuel := by
        rw [Nat.div_lt_iff_lt_mul (by decide)]
        rw [pow_succ] at h
        exact h
      rw [List.append_assoc, ih (n / 10) _ h2]
      simp only [List.singleton_append, atoiDigits, hdig, if_true]
      congr 1
      omega

theorem atoiDigits_fmtNat (n : Nat) : atoiDigits 0 (fmtNat n) = n := by
  have h : n < 10 ^ (n + 1) :=
    lt_of_lt_of_le (Nat.lt_pow_self (by decide) n) (Nat.pow_le_pow_right (by decide) (by omega))
  have := atoiDigits_decDigits (n + 1) n [] h
  simpa [fmtNat, atoiDigits] using this

theorem fmtNat_head (n : Nat) :
    ∃ c cs, fmtNat n = c :: cs ∧ 48 ≤ c.toNat ∧ c.toNat ≤ 57 := by
  have hne : fmtNat n ≠ [] := by
    unfold fmtNat
    simp only [decDigits]
    split_ifs <;> simp
  obtain ⟨c, cs, hcs⟩ := List.exists_cons_of_ne_nil hne
  refine ⟨c, cs, hcs, ?_⟩
  apply decDigits_chars (n + 1) n c
  show c ∈ fmtNat n
  rw [hcs]
  exact List.mem_cons_self _ _

theorem atoi_fmtInt (i : Int) (h1 : INT_MIN ≤ i) (h2 : i ≤ INT_MAX) : atoi (fmtInt i) = i := by
  have hminus : (Char.ofNat 45).toNat = 45 := by decide
  have hplus : (Char.ofNat 43).toNat = 43 := by decide
  unfold INT_MIN at h1
  unfold INT_MAX at h2
  by_cases hneg : i < 0
  · have hf : fmtInt i = Char.ofNat 45 :: fmtNat i.natAbs := by simp [fmtInt, hneg]
    have hsp : isspace (Char.ofNat 45) = false := by decide
    rw [hf]
    simp only [atoi, List.dropWhile, hsp, if_true, atoiDigits_fmtNat]
    unfold clampInt32 INT_MIN INT_MAX
    split_ifs <;> omega
  · have hf : fmtInt i = fmtNat i.toNat := by simp [fmtInt, hneg]
    obtain ⟨c, cs, hcs, hc1, hc2⟩ := fmtNat_head i.toNat
    have hsp : isspace c = false := by
      simp only [isspace, Bool.or_eq_false_iff, Bool.and_eq_false_iff, decide_eq_false_iff_not]
      omega
    have hne1 : c ≠ Char.ofNat 45 := by
      intro h; rw [h, hminus] at hc1; omega
    have hne2 : c ≠ Char.ofNat 43 := by
      intro h; rw [h, hplus] at hc1; omega
    rw [hf]
    have hval := atoiDigits_fmtNat i.toNat
    rw [hcs] at hval ⊢
    simp only [atoi, List.dropWhile, hsp, hne1, hne2, if_false, hval]
    unfold clampInt32 INT_MIN INT_MAX
    split_ifs <;> omega

theorem ack_request_topic_classified (mac : List Nat) :
    strndup (ACK_REQUEST_TOPIC ++ format_mac mac) (ACK_REQUEST_TOPIC ++ format_mac mac).length =
      ACK_REQUEST_TOPIC ++ format_mac mac ∧
    (strstr (ACK_REQUEST_TOPIC ++ format_mac mac) "ack_request/".toList).isSome = true := by
  have hnul : NUL.toNat = 0 := by decide
  constructor
  · apply strndup_of_no_nul
    intro c hc
    rcases List.mem_append.mp hc with h | h
    · have : ∀ c ∈ ACK_REQUEST_TOPIC, c ≠ NUL := by decide
      exact this c h
    · intro hn
      have := format_mac_chars mac c h
      rw [hn, hnul] at this
      omega
  · rw [strstr_isSome_iff]
    refine ⟨"esp32/".toList, format_mac mac, ?_⟩
    have : ACK_REQUEST_TOPIC = "esp32/".toList ++ "ack_request/".toList := by decide
    rw [this]

theorem id_response_topic_classified (mac : List Nat) :
    strndup (ID_RESPONSE_TOPIC ++ format_mac mac) (ID_RESPONSE_TOPIC ++ format_mac mac).length =
      ID_RESPONSE_TOPIC ++ format_mac mac ∧
    (strstr (ID_RESPONSE_TOPIC ++ format_mac mac) "ack_request/".toList).isSome = false ∧
    (strstr (ID_RESPONSE_TOPIC ++ format_mac mac) "id_response/".toList).isSome = true := by
  have hnul : NUL.toNat = 0 := by decide
  have ha : (Char.ofNat 97).toNat = 97 := by decide
  refine ⟨?_, ?_, ?_⟩
  · apply strndup_of_no_nul
    intro c hc
    rcases List.mem_append.mp hc with h | h
    · have : ∀ c ∈ ID_RESPONSE_TOPIC, c ≠ NUL := by decide
      exact this c h
    · intro hn
      have := format_mac_chars mac c h
      rw [hn, hnul] at this
      omega
  · apply strstr_none_of_not_mem _ _ (Char.ofNat 97) (by decide)
    intro hc
    rcases List.mem_append.mp hc with h | h
    · have : Char.ofNat 97 ∉ ID_RESPONSE_TOPIC := by decide
      exact this h
    · have := format_mac_chars mac _ h
      rw [ha] at this
      omega
  · rw [strstr_isSome_iff]
    refine ⟨"esp32/".toList, format_mac mac, ?_⟩
    have : ID_RESPONSE_TOPIC = "esp32/".toList ++ "id_response/".toList := by decide
    rw [this]

theorem ack_topic_classified (id : Int) :
    strndup (ACK_TOPIC ++ fmtInt id) (ACK_TOPIC ++ fmtInt id).length = ACK_TOPIC ++ fmtInt id ∧
    (strstr (ACK_TOPIC ++ fmtInt id) "ack_request/".toList).isSome = false ∧
    (strstr (ACK_TOPIC ++ fmtInt id) "id_response/".toList).isSome = false ∧
    (strstr (ACK_TOPIC ++ fmtInt id) "ack/".toList).isSome = true := by
  have hnul : NUL.toNat = 0 := by decide
  have hr : (Char.ofNat 114).toNat = 114 := by decide
  have hi : (Char.ofNat 105).toNat = 105 := by decide
  refine ⟨?_, ?_, ?_, ?_⟩
  · apply strndup_of_no_nul
    intro c hc
    rcases List.mem_append.mp hc with h | h
    · have : ∀ c ∈ ACK_TOPIC, c ≠ NUL := by decide
      exact this c h
    · intro hn
      have := fmtInt_chars id c h
      rw [hn, hnul] at this
      omega
  · apply strstr_none_of_not_mem _ _ (Char.ofNat 114) (by decide)
    intro hc
    rcases List.mem_append.mp hc with h | h
    · have : Char.ofNat 114 ∉ ACK_TOPIC := by decide
      exact this h
    · have := fmtInt_chars id _ h
      rw [hr] at this
      omega
  · apply strstr_none_of_not_mem _ _ (Char.ofNat 105) (by decide)
    intro hc
    rcases List.mem_append.mp hc with h | h
    · have : Char.ofNat 105 ∉ ACK_TOPIC := by decide
      exact this h
    · have := fmtInt_chars id _ h
      rw [hi] at this
      omega
  · rw [strstr_isSome_iff]
    refine ⟨"esp32/".toList, fmtInt id, ?_⟩
    have : ACK_TOPIC = "esp32/".toList ++ "ack/".toList := by decide
    rw [this]

theorem handler_ack_request (ev : mqtt_event) (s : Machine)
    (h : (strstr (strndup ev.topic ev.topic.length) "ack_request/".toList).isSome = true) :
    mqtt_event_handler MQTT_EVENT_DATA ev s =
      ([], { s with event_group := xEventGroupSetBits s.event_group ACK_REQUEST_BIT }) := by
  simp only [mqtt_event_handler, h, if_true]

theorem handler_id_response (ev : mqtt_event) (s : Machine)
    (h1 : (strstr (strndup ev.topic ev.topic.length) "ack_request/".toList).isSome = false)
    (h2 : (strstr (strndup ev.topic ev.topic.length) "id_response/".toList).isSome = true) :
    mqtt_event_handler MQTT_EVENT_DATA ev s =
      ([], { s with device_id := atoi (strndup ev.data ev.data.length),
                    event_group := xEventGroupSetBits s.event_group ID_RECEIVED_BIT }) := by
  simp only [mqtt_event_handler, h1, h2, if_true, Bool.false_eq_true, if_false]

theorem handler_ack (ev : mqtt_event) (s : Machine)
    (h1 : (strstr (strndup ev.topic ev.topic.length) "ack_request/".toList).isSome = false)
    (h2 : (strstr (strndup ev.topic ev.topic.length) "id_response/".toList).isSome = false)
    (h3 : (strstr (strndup ev.topic ev.topic.length) "ack/".toList).isSome = true) :
    mqtt_event_handler MQTT_EVENT_DATA ev s =
      ([], { s with event_group := xEventGroupSetBits s.event_group ACK_RECEIVED_BIT }) := by
  simp only [mqtt_event_handler, h1, h2, h3, if_true, Bool.false_eq_true, if_false]

/-- C9: for every hardware address `mac` and every integer `id`, the handler's `strstr`
classification of a data event sets exactly `ACK_REQUEST_BIT` for the topic
"esp32/ack_request/<hwid>", exactly `ID_RECEIVED_BIT` for "esp32/id_response/<hwid>" and exactly
`ACK_RECEIVED_BIT` for "esp32/ack/<id>": the event group afterwards is the one before with that
one bit or-ed in.  `<hwid>` is the 17-character text of `format_mac`. -/
theorem handler_classification (mac : List Nat) (id : Int) (data : List Char) (s : Machine) :
    (format_mac mac).length = 17 ∧
    (mqtt_event_handler MQTT_EVENT_DATA
      { topic := ACK_REQUEST_TOPIC ++ format_mac mac, data := data } s).2.event_group =
        s.event_group ||| ACK_REQUEST_BIT ∧
    (mqtt_event_handler MQTT_EVENT_DATA
      { topic := ID_RESPONSE_TOPIC ++ format_mac mac, data := data } s).2.event_group =
        s.event_group ||| ID_RECEIVED_BIT ∧
    (mqtt_event_handler MQTT_EVENT_DATA
      { topic := ACK_TOPIC ++ fmtInt id, data := data } s).2.event_group =
        s.event_group ||| ACK_RECEIVED_BIT := by
  obtain ⟨a1, a2⟩ := ack_request_topic_classified mac
  obtain ⟨b1, b2, b3⟩ := id_response_topic_classified mac
  obtain ⟨c1, c2, c3, c4⟩ := ack_topic_classified id
  refine ⟨by simp [format_mac, snprintf, fmtHex2], ?_, ?_, ?_⟩
  · rw [handler_ack_request _ _ (by rw [a1]; exact a2)]
    rfl
  · rw [handler_id_response _ _ (by rw [b1]; exact b2) (by rw [b1]; exact b3)]
    rfl
  · rw [handler_ack _ _ (by rw [c1]; exact c2) (by rw [c1]; exact c3) (by rw [c1]; exact c4)]
    rfl

theorem app_main_iteration_waiting (env : IterEnv) (s : Machine)
    (h : s.current_state = STATE_WAITING_FOR_ID) :
    app_main_iteration env s = waiting_iteration env s := by
  unfold app_main_iteration
  rw [h]

theorem ack_topic_fits (i : Int) (h1 : INT_MIN ≤ i) (h2 : i ≤ INT_MAX) :
    snprintf MAX_TOPIC_LEN (ACK_TOPIC ++ fmtInt i) = ACK_TOPIC ++ fmtInt i := by
  apply snprintf_of_length_lt
  have h := fmtInt_length i h1 h2
  have hl : ACK_TOPIC.length = 10 := by decide
  simp only [List.length_append, hl, MAX_TOPIC_LEN]
  omega

theorem strndup_fmtInt (i : Int) : strndup (fmtInt i) (fmtInt i).length = fmtInt i := by
  have hnul : NUL.toNat = 0 := by decide
  apply strndup_of_no_nul
  intro c hc hn
  have := fmtInt_chars i c hc
  rw [hn, hnul] at this
  omega

/-- C3: for every `n` in the range of `int`, when a WaitingForId machine handles an id-response
message whose payload is the decimal text of `n` and then runs one loop iteration (clock reading
`t_ack`), the iteration makes exactly one subscribe call, on "esp32/ack/<n>", and the machine
ends Active with `device_id = n`, `missed_acks = 0`, `msg_counter = 0`,
`last_ack_time = t_ack` and the IdReceived flag consumed. -/
theorem id_response_assigns_identity (n : Int) (h1 : INT_MIN ≤ n) (h2 : n ≤ INT_MAX)
    (mac : List Nat) (t_ack t_now : Int) (s : Machine)
    (hs : s.current_state = STATE_WAITING_FOR_ID) :
    app_main_iteration { arrivals := [], t_ack := t_ack, t_now := t_now }
      (mqtt_event_handler MQTT_EVENT_DATA
        { topic := ID_RESPONSE_TOPIC ++ format_mac mac, data := fmtInt n } s).2 =
    ([Action.led_blink 255 128 0, Action.subscribe (ACK_TOPIC ++ fmtInt n) 1],
     { s with current_state := STATE_ACTIVE, device_id := n, msg_counter := 0, missed_acks := 0,
              last_ack_time := t_ack,
              event_group := xEventGroupClearBits
                (xEventGroupSetBits s.event_group ID_RECEIVED_BIT) ID_RECEIVED_BIT }) := by
  obtain ⟨b1, b2, b3⟩ := id_response_topic_classified mac
  rw [handler_id_response _ _ (by rw [b1]; exact b2) (by rw [b1]; exact b3)]
  simp only [strndup_fmtInt, atoi_fmtInt n h1 h2]
  rw [app_main_iteration_waiting _
    { s with device_id := n,
             event_group := xEventGroupSetBits s.event_group ID_RECEIVED_BIT } hs]
  have hbit : xEventGroupSetBits s.event_group ID_RECEIVED_BIT &&& ID_RECEIVED_BIT ≠ 0 := by
    rw [and_set_self]
    decide
  simp only [waiting_iteration, deliver, xEventGroupWaitBits]
  simp [hbit, ack_topic_fits n h1 h2]

/-- C3 witness: payload "42" gives identity 42 and one subscription to "esp32/ack/42". -/
theorem id_response_assigns_identity_witness :
    fmtInt 42 = "42".toList ∧ ACK_TOPIC ++ fmtInt 42 = "esp32/ack/42".toList ∧
    sample_waiting.current_state = STATE_WAITING_FOR_ID ∧
    app_main_iteration { arrivals := [], t_ack := 1000000, t_now := 1000000 }
      (mqtt_event_handler MQTT_EVENT_DATA
        { topic := ID_RESPONSE_TOPIC ++ format_mac sample_mac, data := fmtInt 42 }
        sample_waiting).2 =
    ([Action.led_blink 255 128 0, Action.subscribe (ACK_TOPIC ++ fmtInt 42) 1],
     { sample_waiting with
        current_state := STATE_ACTIVE, device_id := 42, msg_counter := 0, missed_acks := 0,
        last_ack_time := 1000000,
        event_group := xEventGroupClearBits
          (xEventGroupSetBits sample_waiting.event_group ID_RECEIVED_BIT) ID_RECEIVED_BIT }) :=
  ⟨by decide, by decide, by decide,
   id_response_assigns_identity 42 (by decide) (by decide) sample_mac 1000000 1000000
    sample_waiting (by decide)⟩

/-! ## Rounding: bounds by representable numbers -/

theorem dropBits_lt (p fuel n : Nat) (h : n < 2 ^ (p + fuel)) :
    n < 2 ^ (p + dropBits p fuel n) := by
  induction fuel generalizing n with
  | zero => simpa [dropBits] using h
  | succ fuel ih =>
    simp only [dropBits]
    split_ifs with hlt
    · simpa using hlt
    · have h2 : n / 2 < 2 ^ (p + fuel) := by
        rw [Nat.div_lt_iff_lt_mul (by decide)]
        have : 2 ^ (p + (fuel + 1)) = 2 ^ (p + fuel) * 2 := by rw [← Nat.add_assoc, pow_succ]
        omega
      have h3 := ih (n / 2) h2
      have : 2 ^ (p + (dropBits p fuel (n / 2) + 1)) = 2 ^ (p + dropBits p fuel (n / 2)) * 2 := by
        rw [← Nat.add_assoc, pow_succ]
      omega

theorem dropBits_ge (p fuel n : Nat) (h : dropBits p fuel n ≠ 0) :
    2 ^ (p + dropBits p fuel n - 1) ≤ n := by
  induction fuel generalizing n with
  | zero => simp [dropBits] at h
  | succ fuel ih =>
    simp only [dropBits] at h ⊢
    split_ifs at h ⊢ with hlt
    · exact absurd rfl h
    · by_cases h0 : dropBits p fuel (n / 2) = 0
      · rw [h0]
        simpa using Nat.le_of_not_lt hlt
      · have h3 := ih (n / 2) h0
        have e1 : p + (dropBits p fuel (n / 2) + 1) - 1 = (p + dropBits p fuel (n / 2) - 1) + 1 := by
          omega
        rw [e1, pow_succ]
        omega

theorem roundBits_between (p n : Nat) :
    n / 2 ^ dropBits p n n * 2 ^ dropBits p n n ≤ roundBits p n ∧
    roundBits p n ≤ (n / 2 ^ dropBits p n n + 1) * 2 ^ dropBits p n n ∧
    (n % 2 ^ dropBits p n n = 0 → roundBits p n = n) := by
  have hE : 0 < 2 ^ dropBits p n n := Nat.two_pow_pos _
  have hdm := Nat.div_add_mod n (2 ^ dropBits p n n)
  simp only [roundBits]
  refine ⟨?_, ?_, ?_⟩
  · split_ifs
    · exact Nat.mul_le_mul_right _ (Nat.le_succ _)
    · exact Nat.le_refl _
  · split_ifs
    · exact Nat.le_refl _
    · exact Nat.mul_le_mul_right _ (Nat.le_succ _)
  · intro hr
    rw [hr] at hdm ⊢
    have hc : ¬ (2 ^ dropBits p n n < 2 * 0 ∨
        (2 * 0 = 2 ^ dropBits p n n ∧ n / 2 ^ dropBits p n n % 2 = 1)) := by
      omega
    rw [if_neg hc, Nat.mul_comm]
    omega

theorem dropBits_self_lt (p n : Nat) : n < 2 ^ (p + dropBits p n n) :=
  dropBits_lt p n n (lt_of_lt_of_le (Nat.lt_pow_self (by decide) n)
    (Nat.pow_le_pow_right (by decide) (by omega)))

/-- Rounding never passes a representable number from below. -/
theorem roundBits_le_of_le (p n m j : Nat) (hm : m < 2 ^ p) (h : n ≤ m * 2 ^ j) :
    roundBits p n ≤ m * 2 ^ j := by
  obtain ⟨_, hup, hexact⟩ := roundBits_between p n
  have hlt := dropBits_self_lt p n
  have hE : 0 < 2 ^ dropBits p n n := Nat.two_pow_pos _
  have hdm := Nat.div_add_mod n (2 ^ dropBits p n n)
  have hr := Nat.mod_lt n hE
  by_cases he : dropBits p n n = 0
  · rw [he] at hexact
    rw [hexact (by simp [Nat.mod_one])]
    exact h
  · have hge := dropBits_ge p n n he
    by_cases hj : dropBits p n n ≤ j
    · obtain ⟨d, hd⟩ := Nat.exists_eq_add_of_le hj
      have hb : m * 2 ^ j = (m * 2 ^ d) * 2 ^ dropBits p n n := by
        rw [hd, pow_add, Nat.mul_assoc, Nat.mul_comm (2 ^ dropBits p n n)]
      rw [hb] at h ⊢
      have hq : n / 2 ^ dropBits p n n ≤ m * 2 ^ d :=
        Nat.div_le_of_le_mul (by rw [Nat.mul_comm]; exact h)
      rcases Nat.lt_or_eq_of_le hq with hq1 | hq1
      · exact le_trans hup (Nat.mul_le_mul_right _ hq1)
      · have hn : n % 2 ^ dropBits p n n = 0 := by
          rw [hq1, Nat.mul_comm] at hdm
          omega
        rw [hexact hn]
        exact h
    · exfalso
      have h1 : m * 2 ^ j < 2 ^ p * 2 ^ j := Nat.mul_lt_mul_of_pos_right hm (Nat.two_pow_pos _)
      have h2 : 2 ^ p * 2 ^ j ≤ 2 ^ (p + dropBits p n n - 1) := by
        rw [← pow_add]
        exact Nat.pow_le_pow_right (by decide) (by omega)
      omega

/-- Rounding never passes a representable number from above. -/
theorem le_roundBits_of_le (p n m j : Nat) (hp : 1 ≤ p) (hm : m < 2 ^ p) (h : m * 2 ^ j ≤ n) :
    m * 2 ^ j ≤ roundBits p n := by
  obtain ⟨hlow, _, hexact⟩ := roundBits_between p n
  have hE : 0 < 2 ^ dropBits p n n := Nat.two_pow_pos _
  by_cases he : dropBits p n n = 0
  · rw [he] at hexact
    rw [hexact (by simp [Nat.mod_one])]
    exact h
  · have hge := dropBits_ge p n n he
    refine le_trans ?_ hlow
    by_cases hj : dropBits p n n ≤ j
    · obtain ⟨d, hd⟩ := Nat.exists_eq_add_of_le hj
      have hb : m * 2 ^ j = (m * 2 ^ d) * 2 ^ dropBits p n n := by
        rw [hd, pow_add, Nat.mul_assoc, Nat.mul_comm (2 ^ dropBits p n n)]
      rw [hb] at h ⊢
      exact Nat.mul_le_mul_right _ ((Nat.le_div_iff_mul_le hE).mpr h)
    · have h1 : m * 2 ^ j ≤ 2 ^ p * 2 ^ j :=
        Nat.mul_le_mul_right _ (Nat.le_of_lt hm)
      have h2 : 2 ^ p * 2 ^ j ≤ 2 ^ (p + dropBits p n n - 1) := by
        rw [← pow_add]
        exact Nat.pow_le_pow_right (by decide) (by omega)
      have h3 : 2 ^ (p + dropBits p n n - 1) = 2 ^ (p - 1) * 2 ^ dropBits p n n := by
        rw [← pow_add]
        congr 1
        omega
      have h4 : 2 ^ (p - 1) ≤ n / 2 ^ dropBits p n n := by
        rw [Nat.le_div_iff_mul_le hE, ← h3]
        exact hge
      calc m * 2 ^ j ≤ 2 ^ (p + dropBits p n n - 1) := le_trans h1 h2
        _ = 2 ^ (p - 1) * 2 ^ dropBits p n n := h3
        _ ≤ n / 2 ^ dropBits p n n * 2 ^ dropBits p n n := Nat.mul_le_mul_right _ h4

theorem roundBits_of_lt (p n : Nat) (h : n < 2 ^ p) : roundBits p n = n := by
  have he : dropBits p n n = 0 := by
    cases n with
    | zero => rfl
    | succ k => simp [dropBits, h]
  obtain ⟨_, _, hexact⟩ := roundBits_between p n
  rw [he] at hexact
  exact hexact (by simp [Nat.mod_one])

theorem check_staleness_interval (now : Int) (s : Machine) :
    (check_staleness now s).2.publish_interval_sec = s.publish_interval_sec := by
  simp only [check_staleness]
  split_ifs <;> rfl

theorem iteration_publish_interval (env : IterEnv) (s : Machine) :
    (app_main_iteration env s).2.publish_interval_sec = s.publish_interval_sec := by
  have hd := (deliver_frame env.arrivals s).2.2.2.1
  unfold app_main_iteration
  cases s.current_state <;> simp only
  · simp only [discovery_iteration]
    split_ifs <;> exact hd
  · simp only [waiting_iteration]
    split_ifs <;> exact hd
  · simp only [active_iteration]
    rw [check_staleness_interval, (consume_ack_frame _ _).2.2.2.1]
    exact hd

theorem random_publish_interval_bounds (r : Nat) (hr : r ≤ UINT32_MAX) :
    2 * Q32 ≤ random_publish_interval r ∧ random_publish_interval r ≤ 5 * Q32 := by
  have hmax : roundF32 UINT32_MAX = 4294967296 := by decide
  have hrf : roundF32 r ≤ 1 * 2 ^ 32 :=
    roundBits_le_of_le 24 r 1 32 (by decide) (by unfold UINT32_MAX at hr; omega)
  have hx : roundF32 (roundF32 r) ≤ 1 * 2 ^ 32 :=
    roundBits_le_of_le 24 (roundF32 r) 1 32 (by decide) hrf
  have hy : roundF64 (roundF32 (roundF32 r) * 3) = roundF32 (roundF32 r) * 3 :=
    roundBits_of_lt 53 _ (by omega)
  have hz : roundF64 (2 * Q32 + roundF32 (roundF32 r) * 3) =
      2 * Q32 + roundF32 (roundF32 r) * 3 :=
    roundBits_of_lt 53 _ (by unfold Q32; omega)
  have hval : random_publish_interval r = roundF32 (2 * Q32 + roundF32 (roundF32 r) * 3) := by
    simp only [random_publish_interval, hmax, Q32]
    rw [Nat.mul_div_cancel _ (by decide)]
    simp only [Q32] at hy hz
    rw [hy, hz]
  rw [hval]
  constructor
  · have h := le_roundBits_of_le 24 (2 * Q32 + roundF32 (roundF32 r) * 3) 1 33 (by decide)
      (by decide) (by unfold Q32; omega)
    have e : 1 * 2 ^ 33 = 2 * Q32 := by decide
    rw [e] at h
    exact h
  · have h := roundBits_le_of_le 24 (2 * Q32 + roundF32 (roundF32 r) * 3) 5 32 (by decide)
      (by unfold Q32; omega)
    have e : 5 * 2 ^ 32 = 5 * Q32 := by decide
    rw [e] at h
    exact h

/-- C5 (as stated) fails: for `r = UINT32_MAX` the computed interval is exactly 5.0, not below
it (and the same holds for `r = UINT32_MAX - 100`, which the `float` conversions round up). -/
theorem publish_interval_reaches_five :
    UINT32_MAX ≤ 2 ^ 32 - 1 ∧
    random_publish_interval UINT32_MAX = 5 * Q32 ∧
    ¬ random_publish_interval UINT32_MAX < 5 * Q32 ∧
    random_publish_interval (UINT32_MAX - 100) = 5 * Q32 := by
  decide

/-- C5 (amended): for every 32-bit random value `r` the interval computed at line 206 lies in
the closed range [2.0, 5.0]; and neither a handler call nor a loop iteration changes
`publish_interval_sec`. -/
theorem publish_interval_in_closed_range (r : Nat) (hr : r ≤ UINT32_MAX) :
    (2 * Q32 ≤ random_publish_interval r ∧ random_publish_interval r ≤ 5 * Q32) ∧
    (∀ (event_id : mqtt_event_id) (event : mqtt_event) (s : Machine),
      (mqtt_event_handler event_id event s).2.publish_interval_sec = s.publish_interval_sec) ∧
    (∀ (env : IterEnv) (s : Machine),
      (app_main_iteration env s).2.publish_interval_sec = s.publish_interval_sec) :=
  ⟨random_publish_interval_bounds r hr,
   fun id ev s => (handler_frame id ev s).2.2.2.1,
   iteration_publish_interval⟩

/-- C5 witness: `r = 0` gives the interval 2.0, `r = 2^31` gives 3.5. -/
theorem publish_interval_in_closed_range_witness :
    random_publish_interval 0 = 2 * Q32 ∧
    2 * random_publish_interval 2147483648 = 7 * Q32 ∧
    (2 * Q32 ≤ random_publish_interval 2147483648 ∧
      random_publish_interval 2147483648 ≤ 5 * Q32) :=
  ⟨by decide, by decide,
   (publish_interval_in_closed_range 2147483648 (by decide)).1⟩
end Esp32PiMqtt
